import Mathlib

/-!
Verification development for the markdown-resume conversion pipeline.

The development shallowly embeds the document pipeline of the repository:

* convert_to_docx.py : the structured (office-document) renderer, including
  emoji stripping, contact-line splitting, hyperlink embedding and the
  bullet-list handling;
* convert_to_pdf.py  : the page renderer pre-pass (title/subtitle pairing)
  and the header-box wrap over the rendered markup;
* check_ats.py       : the compliance checker for both artifact kinds and
  the process exit-status aggregation.

Texts are embedded as lists of characters, so that the Python string
operations (strip, split, substring containment, replace) can be modelled
with their exact semantics.  Machine-level concerns (file IO, the XML
library, the subprocess layer) are modelled at their interface boundary:
an external tool invocation becomes a value describing its outcome, and
the office-document artifact inspected by the checker becomes a structure
holding exactly the fields the checker reads.
-/

/-- Texts are lists of characters, so Python string primitives can be
modelled exactly. -/
abbrev Text := List Char

/-- The whitespace characters stripped by the Python str.strip method
(the ASCII part of the Python whitespace set; the inputs handled by the
pipeline contain only these). -/
def pyIsSpace (c : Char) : Bool :=
  c = ' ' || c = '\t' || c = '\n' || c = '\r' || c = '\x0b' || c = '\x0c'

/-- Python str.strip with no argument: remove leading and trailing
whitespace. -/
def pyStrip (s : Text) : Text :=
  ((s.dropWhile pyIsSpace).reverse.dropWhile pyIsSpace).reverse

/-- Python str.lower restricted to the characters appearing here
(file-name suffixes and extracted text). -/
def pyLower (s : Text) : Text :=
  s.map Char.toLower

/-- Python substring containment: pat in s. -/
def isSubL (pat : Text) : Text → Bool
  | [] => pat.isEmpty
  | c :: tail => pat.isPrefixOf (c :: tail) || isSubL pat tail

/-- Number of occurrences of a character in a text. -/
def countChar (c : Char) : Text → Nat
  | [] => 0
  | x :: xs => (if x = c then 1 else 0) + countChar c xs

/-- Python str.split with a one-character separator: every occurrence of
the separator opens a new part, so the number of parts is the number of
separator occurrences plus one. -/
def splitChar (sep : Char) : Text → List Text
  | [] => [[]]
  | c :: cs =>
    if c = sep then [] :: splitChar sep cs
    else
      match splitChar sep cs with
      | [] => [[c]]
      | h :: t => (c :: h) :: t

/-- Python str.split with a non-empty multi-character separator:
non-overlapping occurrences are removed left to right and the pieces
between them are returned.  The fuel argument only services the
termination checker: every recursive step consumes at least one
character, so the top entry point never exhausts it.  (Python raises
ValueError on an empty separator; the caller guards that case, and this
function is never used with one.) -/
def pySplitF : Nat → Text → Text → List Text
  | 0, _, s => [s]
  | _ + 1, _, [] => [[]]
  | f + 1, sep, c :: cs =>
    if sep.isPrefixOf (c :: cs) ∧ sep ≠ [] then
      [] :: pySplitF f sep ((c :: cs).drop sep.length)
    else
      match pySplitF f sep cs with
      | [] => [[c]]
      | p :: t => (c :: p) :: t

/-- Python str.split with a non-empty multi-character separator. -/
def pySplit (sep s : Text) : List Text :=
  pySplitF (s.length + 1) sep s

/-- Python str.replace: replace every non-overlapping occurrence of pat,
left to right.  Fuel as in pySplitF.  (All call sites pass a non-empty
pat.) -/
def replaceAllF : Nat → Text → Text → Text → Text
  | 0, _, _, s => s
  | _ + 1, _, _, [] => []
  | f + 1, pat, rep, c :: cs =>
    if pat.isPrefixOf (c :: cs) ∧ pat ≠ [] then
      rep ++ replaceAllF f pat rep ((c :: cs).drop pat.length)
    else c :: replaceAllF f pat rep cs

/-- Python str.replace with a non-empty pattern. -/
def replaceAll (pat rep s : Text) : Text :=
  replaceAllF (s.length + 1) pat rep s

/-- The element tree the markup parser hands to the structured renderer
(the BeautifulSoup view of the markdown2 output): a node is either a bare
string or a tag with a name, an optional href attribute (read only on
anchor tags) and an ordered list of children. -/
inductive Node where
  | str (s : Text)
  | elem (name : String) (href : Option Text) (children : List Node)

mutual
/-- The get_text method: concatenation of every string beneath the node,
in document order. -/
def getText : Node → Text
  | .str s => s
  | .elem _ _ cs => getTextList cs

/-- get_text over a list of sibling nodes. -/
def getTextList : List Node → Text
  | [] => []
  | n :: ns => getText n ++ getTextList ns
end

mutual
/-- The find_all method restricted to a tag name: all descendant elements
with that name, in document order, a matching element listed before its
own matching descendants.  The root node itself is included when it
matches (call sites start from the children list, matching the
BeautifulSoup behaviour of searching descendants only). -/
def findAllTag (tag : String) : Node → List Node
  | .str _ => []
  | .elem n h cs =>
    (if n = tag then [Node.elem n h cs] else []) ++ findAllTagList tag cs

/-- find_all over a list of sibling nodes. -/
def findAllTagList (tag : String) : List Node → List Node
  | [] => []
  | n :: ns => findAllTag tag n ++ findAllTagList tag ns
end

/-- Escaping applied to character data when a parsed element is
serialized back to markup text (the str call on a BeautifulSoup tag with
the default minimal formatter): ampersand and angle brackets become
entities. -/
def escapeData : Text → Text
  | [] => []
  | c :: cs =>
    (if c = '&' then "&amp;".toList
     else if c = '<' then "&lt;".toList
     else if c = '>' then "&gt;".toList
     else [c]) ++ escapeData cs

mutual
/-- Serialization of a node back to markup text (the str call on a
BeautifulSoup tag): opening tag with the href attribute when present,
serialized children, closing tag.  Character data is entity-escaped. -/
def serialize : Node → Text
  | .str s => escapeData s
  | .elem n h cs =>
    '<' :: n.toList ++
      (match h with
       | some u => " href=\"".toList ++ u ++ ['\"']
       | none => []) ++ ['>'] ++
    serializeList cs ++ "</".toList ++ n.toList ++ ['>']

/-- Serialization of a list of sibling nodes. -/
def serializeList : List Node → Text
  | [] => []
  | n :: ns => serialize n ++ serializeList ns
end

namespace ConvertToDocx

/-- The emoji character class of EMOJI_RE in convert_to_docx.py: the
fixed emoji / symbol / variation-selector / joiner codepoint ranges. -/
def isEmoji (c : Char) : Bool :=
  let n := c.toNat
  (0x1f600 ≤ n && n ≤ 0x1f64f) || (0x1f300 ≤ n && n ≤ 0x1f5ff) ||
  (0x1f680 ≤ n && n ≤ 0x1f6ff) || (0x1f1e0 ≤ n && n ≤ 0x1f1ff) ||
  (0x2702 ≤ n && n ≤ 0x27b0) || (0x1f900 ≤ n && n ≤ 0x1f9ff) ||
  (0x2600 ≤ n && n ≤ 0x26ff) || (0xfe00 ≤ n && n ≤ 0xfe0f) ||
  n = 0x200d || n = 0x2060 || (0x231a ≤ n && n ≤ 0x231b)

/-- strip_emojis of convert_to_docx.py: EMOJI_RE.sub with the empty
replacement (substituting every maximal run of class characters with the
empty string deletes exactly the class characters) followed by str.strip. -/
def strip_emojis (t : Text) : Text :=
  pyStrip (t.filter (fun c => !isEmoji c))

/-- A run appended to an output paragraph.  A linkRun records one
add_hyperlink call: the call registers the url as an external hyperlink
relationship of the artifact part (relate_to) and splices a run carrying
the visible text that references the obtained relationship id, so one
linkRun stands for exactly one registration together with its
link-carrying run.  A boldRun is a run with bold character formatting
(used for strong spans in list items).  Cosmetic run properties (font
name, size, colors, underline) are not modelled. -/
inductive PRun where
  | run (t : Text)
  | linkRun (t : Text) (url : Option Text)
  | boldRun (t : Text)
deriving DecidableEq, Repr

/-- A block appended to the output document by create_docx: a built-in
style heading, a plain paragraph with its runs, a bullet-list paragraph
with its runs, or an italic emphasis paragraph. -/
inductive DocxBlock where
  | heading (level : Nat) (text : Text)
  | para (runs : List PRun)
  | bulletPara (runs : List PRun)
  | emPara (text : Text)
deriving DecidableEq, Repr

mutual
/-- process_text_with_links: if the element is an anchor, a hyperlink for
its visible text and href is added; otherwise the children are walked:
bare strings are added as plain runs unless they strip to the empty
string, anchor children become hyperlinks, and other children are
processed recursively. -/
def process_text_with_links : Node → List PRun
  | .str _ => []
  | .elem name href cs =>
    if name = "a" then [PRun.linkRun (getTextList cs) href]
    else processChildren cs

/-- The children walk of process_text_with_links. -/
def processChildren : List Node → List PRun
  | [] => []
  | .str s :: rest =>
    (if pyStrip s ≠ [] then [PRun.run s] else []) ++ processChildren rest
  | .elem n h cs :: rest =>
    (if n = "a" then [PRun.linkRun (getTextList cs) h]
     else process_text_with_links (.elem n h cs)) ++ processChildren rest
end

/-- The contact-line search for an anchor child whose stripped visible
text is contained in the current part (first match wins; bare string
children have no tag name and never match). -/
def findLinkChild (part : Text) : List Node → Option Node
  | [] => none
  | .str _ :: rest => findLinkChild part rest
  | .elem n h cs :: rest =>
    if n = "a" ∧ isSubL (pyStrip (getTextList cs)) part then
      some (.elem n h cs)
    else findLinkChild part rest

/-- Rendering of one pipe-delimited contact part: the part is stripped;
if an anchor child matches, the text before the first occurrence of the
anchor text, the hyperlink itself, and the text between the first and
second occurrence are emitted (empty pieces are not emitted); otherwise
the whole part is a plain run.  When the matching anchor has empty
visible text, Python calls str.split with an empty separator, which
raises ValueError and aborts the conversion: that outcome is none. -/
def renderPart (children : List Node) (rawPart : Text) : Option (List PRun) :=
  let part := pyStrip rawPart
  match findLinkChild part children with
  | none => some [PRun.run part]
  | some lk =>
    let t := getText lk
    if t = [] then none
    else
      let pieces := pySplit t part
      let before := pieces.headD []
      let after := pieces.getD 1 []
      some ((if before ≠ [] then [PRun.run before] else []) ++
            [PRun.linkRun t (match lk with | .elem _ h _ => h | .str _ => none)] ++
            (if after ≠ [] then [PRun.run after] else []))

/-- Rendering of all contact parts in order; the first ValueError aborts
the whole conversion. -/
def renderParts (children : List Node) : List Text → Option (List (List PRun))
  | [] => some []
  | p :: ps =>
    match renderPart children p, renderParts children ps with
    | some s, some rest => some (s :: rest)
    | _, _ => none

/-- The contact-line loop emits each segment followed by a literal
" | " separator run between consecutive segments. -/
def joinSegs : List (List PRun) → List PRun
  | [] => []
  | [s] => s
  | s :: rest => s ++ [PRun.run " | ".toList] ++ joinSegs rest

/-- Scan for the closing strong tag: the lazy dot-star of the split
pattern cannot cross a newline (the dot does not match newline), so a
strong span ends at the nearest closing tag reached without a newline,
and there is no span if a newline comes first. -/
def strongEnd : Text → Option (Text × Text)
  | [] => none
  | c :: cs =>
    if "</strong>".toList.isPrefixOf (c :: cs) then
      some ("</strong>".toList, (c :: cs).drop 9)
    else if c = '\n' then none
    else
      match strongEnd cs with
      | some (m, r) => some (c :: m, r)
      | none => none

/-- re.split with the capturing strong-span pattern: the pieces between
matches alternate with the matched spans; empty pieces are kept.  Fuel
as in pySplitF: each step consumes at least one character. -/
def strongSplitF : Nat → Text → List Text
  | 0, s => [s]
  | _ + 1, [] => [[]]
  | f + 1, c :: cs =>
    if "<strong>".toList.isPrefixOf (c :: cs) then
      match strongEnd ((c :: cs).drop 8) with
      | some (m, rest) =>
        [] :: ("<strong>".toList ++ m) :: strongSplitF f rest
      | none =>
        match strongSplitF f cs with
        | [] => [[c]]
        | p :: t => (c :: p) :: t
    else
      match strongSplitF f cs with
      | [] => [[c]]
      | p :: t => (c :: p) :: t

/-- re.split with the capturing strong-span pattern. -/
def strongSplit (s : Text) : List Text :=
  strongSplitF (s.length + 1) s

/-- Rendering of one list item.  When the item contains strong tags the
item is serialized back to markup text, the li tags are removed, the text
is split around the strong spans, and each piece becomes a bold or plain
run (emoji-stripped); otherwise the items plain text becomes a single
run. -/
def renderLi (li : Node) : List PRun :=
  let strongs :=
    match li with
    | .str _ => []
    | .elem _ _ cs => findAllTagList "strong" cs
  match strongs with
  | _ :: _ =>
    let text := replaceAll "</li>".toList []
      (replaceAll "<li>".toList [] (serialize li))
    (strongSplit text).map (fun part =>
      if "<strong>".toList.isPrefixOf part then
        PRun.boldRun (strip_emojis
          (replaceAll "</strong>".toList []
            (replaceAll "<strong>".toList [] part)))
      else PRun.run (strip_emojis part))
  | [] => [PRun.run (strip_emojis (getText li))]

/-- Rendering of one top-level element by create_docx.  Bare strings are
skipped.  An h1/h2/h3 element becomes a built-in style heading carrying
its emoji-stripped plain text.  A p element whose emoji-stripped plain
text contains both a pipe and an at sign is rendered as a centered
contact line: the text is split on pipes, each part is rendered by the
contact algorithm, and consecutive segments are joined with a literal
" | " run; any other p element is walked by process_text_with_links.
An em element becomes an italic emphasis paragraph.  A ul element adds a
bullet paragraph for every descendant li.  Every other tag falls through
the dispatch and produces nothing. -/
def renderElement : Node → Option (List DocxBlock)
  | .str _ => some []
  | .elem name href cs =>
    if name = "h1" then some [.heading 1 (strip_emojis (getTextList cs))]
    else if name = "p" then
      let text := strip_emojis (getTextList cs)
      if '|' ∈ text ∧ '@' ∈ text then
        (renderParts cs (splitChar '|' text)).map
          (fun segs => [DocxBlock.para (joinSegs segs)])
      else some [DocxBlock.para (process_text_with_links (.elem name href cs))]
    else if name = "h2" then some [.heading 2 (strip_emojis (getTextList cs))]
    else if name = "h3" then some [.heading 3 (strip_emojis (getTextList cs))]
    else if name = "em" then some [.emPara (strip_emojis (getTextList cs))]
    else if name = "ul" then
      some ((findAllTagList "li" cs).map (fun li => DocxBlock.bulletPara (renderLi li)))
    else some []

/-- create_docx: walk the top-level elements in order and append their
blocks to the document.  A ValueError raised while rendering a contact
line aborts the conversion (none). -/
def create_docx : List Node → Option (List DocxBlock)
  | [] => some []
  | n :: ns =>
    match renderElement n, create_docx ns with
    | some bs, some rest => some (bs ++ rest)
    | _, _ => none

mutual
/-- The hyperlink occurrences of the parsed document, in document order:
the href attribute of every anchor element. -/
def anchors : Node → List (Option Text)
  | .str _ => []
  | .elem n h cs => (if n = "a" then [h] else []) ++ anchorsList cs

/-- Hyperlink occurrences of a list of sibling nodes. -/
def anchorsList : List Node → List (Option Text)
  | [] => []
  | n :: ns => anchors n ++ anchorsList ns
end

mutual
/-- True when no anchor element occurs in the node or below it. -/
def anchorFree : Node → Bool
  | .str _ => true
  | .elem n _ cs => n ≠ "a" && anchorFreeList cs

/-- anchorFree over a list of sibling nodes. -/
def anchorFreeList : List Node → Bool
  | [] => true
  | n :: ns => anchorFree n && anchorFreeList ns
end

mutual
/-- Well-formed anchor nesting: no anchor element contains another
anchor (true of any tree produced by the markup conversion, since the
markup language cannot nest links). -/
def wfAnchors : Node → Bool
  | .str _ => true
  | .elem n _ cs => if n = "a" then anchorFreeList cs else wfAnchorsList cs

/-- wfAnchors over a list of sibling nodes. -/
def wfAnchorsList : List Node → Bool
  | [] => true
  | n :: ns => wfAnchors n && wfAnchorsList ns
end

/-- The relationship registrations carried by a run sequence: the target
url of every link-carrying run, in order (each linkRun stands for one
relate_to registration of its url plus the run referencing it). -/
def runLinks : List PRun → List (Option Text)
  | [] => []
  | .linkRun _ u :: rest => u :: runLinks rest
  | .run _ :: rest => runLinks rest
  | .boldRun _ :: rest => runLinks rest

/-- The relationship registrations of a rendered document, in order. -/
def blockLinks : List DocxBlock → List (Option Text)
  | [] => []
  | .para rs :: rest => runLinks rs ++ blockLinks rest
  | .bulletPara rs :: rest => runLinks rs ++ blockLinks rest
  | .heading _ _ :: rest => blockLinks rest
  | .emPara _ :: rest => blockLinks rest

/-- The side condition of the link-preservation theorem: every top-level
element keeps its hyperlinks inside non-contact paragraphs.  A paragraph
must not be classified as a contact line and must have well-formed anchor
nesting; every other element must be anchor-free, itself included. -/
def topOk : Node → Bool
  | .str _ => true
  | .elem n h cs =>
    if n = "p" then
      (let text := strip_emojis (getTextList cs)
       !(('|' ∈ text : Bool) && ('@' ∈ text : Bool))) && wfAnchorsList cs
    else anchorFree (Node.elem n h cs)

/-- topOk over the top-level element list. -/
def topOkList : List Node → Bool
  | [] => true
  | n :: ns => topOk n && topOkList ns

end ConvertToDocx

namespace ConvertToPdf

/-- The emoji character class of EMOJI_RE in convert_to_pdf.py (the same
codepoint ranges as the structured pipeline). -/
def isEmoji (c : Char) : Bool :=
  let n := c.toNat
  (0x1f600 ≤ n && n ≤ 0x1f64f) || (0x1f300 ≤ n && n ≤ 0x1f5ff) ||
  (0x1f680 ≤ n && n ≤ 0x1f6ff) || (0x1f1e0 ≤ n && n ≤ 0x1f1ff) ||
  (0x2702 ≤ n && n ≤ 0x27b0) || (0x1f900 ≤ n && n ≤ 0x1f9ff) ||
  (0x2600 ≤ n && n ≤ 0x26ff) || (0xfe00 ≤ n && n ≤ 0xfe0f) ||
  n = 0x200d || n = 0x2060 || (0x231a ≤ n && n ≤ 0x231b)

/-- strip_emojis of convert_to_pdf.py: EMOJI_RE.sub with the empty
replacement, and nothing else (no strip call, unlike the structured
pipeline). -/
def strip_emojis (t : Text) : Text :=
  t.filter (fun c => !isEmoji c)

/-- The condition on the current line in preprocess_markdown: the
stripped line starts with a double asterisk, and a further double
asterisk occurs in the raw line from index 2 on. -/
def boldLeading (line : Text) : Bool :=
  "**".toList.isPrefixOf (pyStrip line) && isSubL "**".toList (line.drop 2)

/-- The condition on the stripped next line in preprocess_markdown: it
is non-empty and does not start with a hash mark or with the black
square character U+25A0. -/
def subtitleOk (next : Text) : Bool :=
  let ns := pyStrip next
  !ns.isEmpty && !("#".toList.isPrefixOf ns) && !("■".toList.isPrefixOf ns)

/-- preprocess_markdown on the line list: a line satisfying boldLeading
whose successor satisfies subtitleOk is replaced by a level-3 heading
line carrying the raw line, followed by an emphasized line carrying the
stripped successor; both lines are consumed.  Every other line passes
through unchanged. -/
def preprocessLines : List Text → List Text
  | [] => []
  | [l] => [l]
  | l :: next :: rest =>
    if boldLeading l && subtitleOk next then
      ("### ".toList ++ l) :: (('*' :: pyStrip next) ++ ['*']) :: preprocessLines rest
    else l :: preprocessLines (next :: rest)

/-- Python str.join with a newline separator. -/
def joinNl : List Text → Text
  | [] => []
  | [l] => l
  | l :: rest => l ++ '\n' :: joinNl rest

/-- preprocess_markdown: split the raw markup on newlines, run the
line pre-pass, join back with newlines. -/
def preprocess_markdown (s : Text) : Text :=
  joinNl (preprocessLines (splitChar '\n' s))

/-- The nearest closing p tag reachable by the lazy body of a paragraph
unit: the consumed text up to and including the closing tag, paired with
the remainder.  (The lazy body prefers the nearest closing tag, and
since nothing after the repetition can fail, no later closing tag is
ever taken.) -/
def closePara : Text → Option (Text × Text)
  | [] => none
  | c :: cs =>
    if "</p>".toList.isPrefixOf (c :: cs) then
      some ("</p>".toList, (c :: cs).drop 4)
    else
      match closePara cs with
      | some pr => some (c :: pr.1, pr.2)
      | none => none

/-- One paragraph unit of the header pattern: a whitespace run, the
opening p tag, the lazy body, the nearest closing p tag.  The whitespace
run is maximal (no whitespace character can start the literal open tag,
so no shorter run can match). -/
def pUnit (s : Text) : Option (Text × Text) :=
  let ws := s.takeWhile pyIsSpace
  let s1 := s.dropWhile pyIsSpace
  if "<p>".toList.isPrefixOf s1 then
    match closePara (s1.drop 3) with
    | some pr => some (ws ++ "<p>".toList ++ pr.1, pr.2)
    | none => none
  else none

/-- The one-or-two paragraph-unit repetition of the header pattern: the
greedy repetition matches one unit, then tries a second unit directly
after it; if the second unit fails the repetition settles for one unit
(stopping at the minimum succeeds before any backtracking into the
first units lazy body, since nothing follows the repetition). -/
def unitsMatch (s : Text) : Option (Text × Text) :=
  match pUnit s with
  | none => none
  | some (u1, r1) =>
    match pUnit r1 with
    | some (u2, r2) => some (u1 ++ u2, r2)
    | none => some (u1, r1)

/-- The part of the header pattern after the opening h1 tag: the lazy
dot-star runs to a closing h1 tag (nearest first), and the paragraph
repetition must match right after it; on failure the dot-star extends
past the closing tag and the next closing tag is tried. -/
def matchAfterH1 : Text → Option (Text × Text)
  | [] => none
  | c :: cs =>
    if "</h1>".toList.isPrefixOf (c :: cs) then
      match unitsMatch ((c :: cs).drop 5) with
      | some (u, rest) => some ("</h1>".toList ++ u, rest)
      | none =>
        match matchAfterH1 cs with
        | some (m, r) => some (c :: m, r)
        | none => none
    else
      match matchAfterH1 cs with
      | some (m, r) => some (c :: m, r)
      | none => none

/-- The leftmost match of the whole header pattern: the scan advances
character by character, and the pattern can only start at an opening h1
tag; the result splits the input into the text before the match, the
match, and the text after it. -/
def findHeaderMatch : Text → Option (Text × Text × Text)
  | [] => none
  | c :: cs =>
    if "<h1>".toList.isPrefixOf (c :: cs) then
      match matchAfterH1 ((c :: cs).drop 4) with
      | some (m, rest) => some ([], "<h1>".toList ++ m, rest)
      | none =>
        match findHeaderMatch cs with
        | some (p, m, r) => some (c :: p, m, r)
        | none => none
    else
      match findHeaderMatch cs with
      | some (p, m, r) => some (c :: p, m, r)
      | none => none

/-- The opening text of the header-box container. -/
def divOpen : Text := "<div class=\"header-box\">".toList

/-- The closing text of the header-box container. -/
def divClose : Text := "</div>".toList

/-- The single-substitution header wrap of create_styled_html: the
leftmost match of the header pattern, if any, is replaced by the same
text wrapped in the header-box container; at most one substitution is
performed (count is one). -/
def wrapHeader (s : Text) : Text :=
  match findHeaderMatch s with
  | none => s
  | some (pre, m, post) => pre ++ divOpen ++ m ++ divClose ++ post

/-- The body production of create_styled_html before the static page
template is wrapped around it: the rendered markup is emoji-stripped and
the header wrap is applied.  (The outer page template is a fixed text
with fixed styling and is not modelled.) -/
def create_styled_body (htmlBody : Text) : Text :=
  wrapHeader (strip_emojis htmlBody)

end ConvertToPdf

namespace CheckAts

/-- The emoji character class of EMOJI_RE in check_ats.py (the same
codepoint ranges again). -/
def isEmoji (c : Char) : Bool :=
  let n := c.toNat
  (0x1f600 ≤ n && n ≤ 0x1f64f) || (0x1f300 ≤ n && n ≤ 0x1f5ff) ||
  (0x1f680 ≤ n && n ≤ 0x1f6ff) || (0x1f1e0 ≤ n && n ≤ 0x1f1ff) ||
  (0x2702 ≤ n && n ≤ 0x27b0) || (0x1f900 ≤ n && n ≤ 0x1f9ff) ||
  (0x2600 ≤ n && n ≤ 0x26ff) || (0xfe00 ≤ n && n ≤ 0xfe0f) ||
  n = 0x200d || n = 0x2060 || (0x231a ≤ n && n ≤ 0x231b)

/-- The status of one compliance check. -/
inductive Status where
  | PASS
  | WARN
  | SKIP
  | INFO
deriving DecidableEq, Repr

/-- One entry of a compliance report: a status and the check name.  The
human-readable detail string of each entry is operator-facing text and
is not modelled; no verdict or exit code depends on it. -/
structure CheckResult where
  status : Status
  name : String
deriving DecidableEq, Repr

/-- The ATS-safe font allowlist. -/
def ATS_SAFE_FONTS : List String :=
  ["Calibri", "Arial", "Times New Roman", "Helvetica", "Georgia", "Cambria"]

/-- A run of the office document as the checker reads it: the font name
and the color, when explicitly set. -/
structure DocxRun where
  fontName : Option String
  colorRgb : Option String
deriving DecidableEq, Repr

/-- A paragraph of the office document as the checker reads it: the
style name, the paragraph text, and the runs. -/
structure DocxPara where
  styleName : String
  text : Text
  runs : List DocxRun
deriving DecidableEq, Repr

/-- A section descriptor of the office document: the cols elements of
the section properties, each carrying an optional explicit column
number (absent means the default of one). -/
structure DocxSec where
  cols : List (Option Nat)
deriving DecidableEq, Repr

/-- The office-document artifact as the checker reads it: paragraphs,
the default style font, the table count, the relationship types of the
document part, and the section descriptors. -/
structure DocxFile where
  paragraphs : List DocxPara
  normalFont : Option String
  tablesCount : Nat
  relTypes : List String
  sections : List DocxSec
deriving DecidableEq, Repr

/-- check_docx: the nine fixed checks over a structured artifact, in
order: built-in heading styles, font allowlist, tables, images, text
colors, emoji residue, column layout, hyperlink relationships
(informational PASS/INFO), and the style summary (always INFO). -/
def check_docx (d : DocxFile) : List CheckResult :=
  let headings := d.paragraphs.filter (fun p => "Heading".toList.isPrefixOf p.styleName.toList)
  let r1 : CheckResult :=
    if headings.isEmpty then ⟨.WARN, "Heading styles"⟩ else ⟨.PASS, "Heading styles"⟩
  let fontsUsed := (d.paragraphs.flatMap (fun p => p.runs)).filterMap (fun r => r.fontName)
  let r2 : CheckResult :=
    if fontsUsed.any (fun f => !(ATS_SAFE_FONTS.contains f)) then ⟨.WARN, "Fonts"⟩
    else ⟨.PASS, "Fonts"⟩
  let r3 : CheckResult :=
    if d.tablesCount ≠ 0 then ⟨.WARN, "Tables"⟩ else ⟨.PASS, "Tables"⟩
  let imageCount := (d.relTypes.filter (fun rt => isSubL "image".toList rt.toList)).length
  let r4 : CheckResult :=
    if imageCount ≠ 0 then ⟨.WARN, "Images"⟩ else ⟨.PASS, "Images"⟩
  let colors := (d.paragraphs.flatMap (fun p => p.runs)).filterMap (fun r => r.colorRgb)
  let r5 : CheckResult :=
    if colors.any (fun c => c ≠ "000000" && c ≠ "0000FF") then ⟨.WARN, "Text colors"⟩
    else ⟨.PASS, "Text colors"⟩
  let r6 : CheckResult :=
    if d.paragraphs.any (fun p => p.text.any isEmoji) then ⟨.WARN, "Emoji"⟩
    else ⟨.PASS, "Emoji"⟩
  let multiCol := d.sections.any (fun s =>
    match s.cols with
    | [] => false
    | c :: _ => c.getD 1 > 1)
  let r7 : CheckResult :=
    if multiCol then ⟨.WARN, "Layout"⟩ else ⟨.PASS, "Layout"⟩
  let linkCount := (d.relTypes.filter (fun rt => isSubL "hyperlink".toList rt.toList)).length
  let r8 : CheckResult :=
    if linkCount ≠ 0 then ⟨.PASS, "Hyperlinks"⟩ else ⟨.INFO, "Hyperlinks"⟩
  let r9 : CheckResult := ⟨.INFO, "Styles used"⟩
  [r1, r2, r3, r4, r5, r6, r7, r8, r9]

/-- The outcome of running the external text-extraction tool: the binary
may be absent (FileNotFoundError), the process may exceed the fixed
timeout (TimeoutExpired), or it runs to completion with a return code
and a standard-output text. -/
inductive ToolRun where
  | unavailable
  | timedOut
  | ran (rc : Int) (out : Text)
deriving DecidableEq, Repr

/-- The outcome of running the external page-info tool, modelled at the
tool boundary: absent or timed out, or completed with a return code and
the parsed value of its Pages line when one is present (the tool prints
the line as Pages followed by a colon and a well-formed integer, which
check_pdf parses with int). -/
inductive InfoRun where
  | unavailable
  | timedOut
  | ran (rc : Int) (pages : Option Nat)
deriving DecidableEq, Repr

/-- The environment facts check_pdf observes about a paged artifact: the
file size in bytes and the outcomes of the two external tools. -/
structure PdfEnv where
  sizeBytes : Nat
  pdftotext : ToolRun
  pdfinfo : InfoRun
deriving DecidableEq, Repr

/-- check_pdf: file size against the upload threshold (the Python
comparison size over 1024 greater than 2048 on exact float division of
a size below 2 to the 53rd equals bytes greater than 2097152); then text
extraction, whose absence is SKIP and whose timeout is WARN, and which
binds the extracted text only on return code zero with non-blank output;
the emoji and section checks run only over extracted text; the page
count check runs only when the info tool completed with return code
zero and printed a Pages line. -/
def check_pdf (e : PdfEnv) : List CheckResult :=
  let r1 : CheckResult :=
    if e.sizeBytes > 2048 * 1024 then ⟨.WARN, "File size"⟩ else ⟨.PASS, "File size"⟩
  let extraction : CheckResult × Option Text :=
    match e.pdftotext with
    | .ran rc out =>
      if rc = 0 ∧ pyStrip out ≠ [] then (⟨.PASS, "Text extraction"⟩, some out)
      else (⟨.WARN, "Text extraction"⟩, none)
    | .unavailable => (⟨.SKIP, "Text extraction"⟩, none)
    | .timedOut => (⟨.WARN, "Text extraction"⟩, none)
  let emojiRes : List CheckResult :=
    match extraction.2 with
    | some t => if t.any isEmoji then [⟨.WARN, "Emoji"⟩] else [⟨.PASS, "Emoji"⟩]
    | none => []
  let expected : List Text := ["experience".toList, "education".toList, "skills".toList]
  let sectRes : List CheckResult :=
    match extraction.2 with
    | some t =>
      if expected.any (fun s => !isSubL s (pyLower t)) then [⟨.WARN, "Sections"⟩]
      else [⟨.PASS, "Sections"⟩]
    | none => []
  let pageRes : List CheckResult :=
    match e.pdfinfo with
    | .ran rc (some pages) =>
      if rc = 0 then
        if pages > 2 then [⟨.WARN, "Page count"⟩] else [⟨.PASS, "Page count"⟩]
      else []
    | _ => []
  [r1, extraction.1] ++ emojiRes ++ sectRes ++ pageRes

/-- The warning count of print_results. -/
def warn_count (results : List CheckResult) : Nat :=
  (results.filter (fun r => r.status = Status.WARN)).length

/-- The per-file verdict of print_results: the report is ATS ready
exactly when its warning count is zero. -/
def ats_ready (results : List CheckResult) : Bool :=
  warn_count results = 0

/-- One input file of a checker invocation, at the filesystem boundary:
whether the path exists, its suffix, and the artifact content the
dispatched check would read (only the field matching the suffix is ever
consulted). -/
structure FsFile where
  present : Bool
  suffix : String
  docx : DocxFile
  pdf : PdfEnv

/-- Whether processing one file sets the exit code: a missing file, an
unsupported suffix, and a report containing a WARN all do; the dispatch
lowercases the suffix. -/
def fileFlag (f : FsFile) : Bool :=
  if !f.present then true
  else if pyLower f.suffix.toList = ".docx".toList then
    (check_docx f.docx).any (fun r => r.status = Status.WARN)
  else if pyLower f.suffix.toList = ".pdf".toList then
    (check_pdf f.pdf).any (fun r => r.status = Status.WARN)
  else true

/-- The batch loop of main: the exit code starts at zero and is set to
one whenever a file is missing, unsupported, or produced a warning. -/
def main_loop (code : Nat) : List FsFile → Nat
  | [] => code
  | f :: rest => main_loop (if fileFlag f then 1 else code) rest

/-- The process exit status of a checker invocation. -/
def main_exit (files : List FsFile) : Nat :=
  main_loop 0 files

end CheckAts

/-! ### Helper lemmas -/

theorem mem_of_mem_pyStrip {c : Char} {l : Text} (h : c ∈ pyStrip l) : c ∈ l := by
  unfold pyStrip at h
  rw [List.mem_reverse] at h
  have h2 := (List.dropWhile_sublist (p := pyIsSpace)
    (l := (l.dropWhile pyIsSpace).reverse)).subset h
  rw [List.mem_reverse] at h2
  exact (List.dropWhile_sublist (p := pyIsSpace) (l := l)).subset h2

theorem any_pyStrip_false {p : Char → Bool} {l : Text}
    (h : l.any p = false) : (pyStrip l).any p = false := by
  rw [List.any_eq_false] at h ⊢
  intro c hc
  exact h c (mem_of_mem_pyStrip hc)

theorem any_filter_not_self (p : Char → Bool) (l : Text) :
    (l.filter (fun c => !p c)).any p = false := by
  rw [List.any_eq_false]
  intro c hc
  have := List.of_mem_filter hc
  simpa using this

/-- C3.  The claim states that every text stored in the document model is
emoji-free after the parse-time stripping.  The stripping function itself
is complete: its output never contains a character of the emoji class
(first conjunct).  But the renderer does not route every stored text
through it: a non-contact paragraph is walked by
process_text_with_links, which stores the raw child strings, so the
document built from a paragraph holding an emoji keeps the emoji in its
stored run (second and third conjuncts evaluate the renderer on such an
input).  The claim is right about the intent and the code leaves one
path unstripped. -/
theorem claim_c3_emoji_stripping :
    (∀ t : Text, (ConvertToDocx.strip_emojis t).any ConvertToDocx.isEmoji = false) ∧
    ConvertToDocx.create_docx [Node.elem "p" none [Node.str "Hi 😀".toList]] =
      some [ConvertToDocx.DocxBlock.para [ConvertToDocx.PRun.run "Hi 😀".toList]] ∧
    "Hi 😀".toList.any ConvertToDocx.isEmoji = true := by
  refine ⟨fun t => ?_, by decide, by decide⟩
  exact any_pyStrip_false (any_filter_not_self _ _)

/-- C8.  The two pipelines delete exactly the same emoji codepoints
(first conjunct: the class predicates agree), but the structured
pipeline additionally strips leading and trailing whitespace: its
strip_emojis is the page pipeline version followed by str.strip (second
conjunct).  The two functions are therefore related by a trim, not
extensionally equal. -/
theorem claim_c8_strip_relation :
    (∀ c : Char, ConvertToDocx.isEmoji c = ConvertToPdf.isEmoji c) ∧
    (∀ t : Text, ConvertToDocx.strip_emojis t = pyStrip (ConvertToPdf.strip_emojis t)) :=
  ⟨fun _ => rfl, fun _ => rfl⟩

/-- C8 counterexample: on a text with surrounding whitespace and no
emoji at all, the two stripping functions disagree, so they are not
extensionally equal as the claim states. -/
theorem claim_c8_counterexample :
    ConvertToDocx.strip_emojis " Hi ".toList ≠ ConvertToPdf.strip_emojis " Hi ".toList := by
  decide

theorem processChildren_ws_skip (s : Text) (h : pyStrip s = []) :
    ∀ (pre post : List Node),
      ConvertToDocx.processChildren (pre ++ Node.str s :: post) =
      ConvertToDocx.processChildren (pre ++ post) := by
  intro pre
  induction pre with
  | nil =>
    intro post
    simp [ConvertToDocx.processChildren, h]
  | cons hd tl ih =>
    intro post
    cases hd with
    | str s2 => simp [ConvertToDocx.processChildren, ih post]
    | elem n hr cs => simp [ConvertToDocx.processChildren, ih post]

/-- C10.  In the recursive run walk of a non-contact paragraph, a direct
string child that strips to the empty string contributes no run: the
walk of the children with the whitespace string removed produces exactly
the same run sequence, so whitespace separating two hyperlinks at the
top level of the paragraph never reaches the artifact. -/
theorem claim_c10_whitespace_skipped (s : Text) (pre post : List Node)
    (h : pyStrip s = []) :
    ConvertToDocx.process_text_with_links (Node.elem "p" none (pre ++ Node.str s :: post)) =
    ConvertToDocx.process_text_with_links (Node.elem "p" none (pre ++ post)) := by
  simp only [ConvertToDocx.process_text_with_links,
    show ("p" = "a") = False by simp, if_false]
  exact processChildren_ws_skip s h pre post

/-- C10 witness: a single-space string child between two hyperlinks is
skipped, so the walk equals the walk without it. -/
theorem claim_c10_witness :
    pyStrip " ".toList = [] ∧
    ConvertToDocx.process_text_with_links (Node.elem "p" none
      ([Node.elem "a" (some "https://a.example".toList) [Node.str "a".toList]] ++
        Node.str " ".toList ::
        [Node.elem "a" (some "https://b.example".toList) [Node.str "b".toList]])) =
    ConvertToDocx.process_text_with_links (Node.elem "p" none
      ([Node.elem "a" (some "https://a.example".toList) [Node.str "a".toList]] ++
        [Node.elem "a" (some "https://b.example".toList) [Node.str "b".toList]])) :=
  ⟨by decide, claim_c10_whitespace_skipped " ".toList _ _ (by decide)⟩

/-- C4.  The dispatch of create_docx has no fallback branch: a top-level
element whose tag is none of h1, p, h2, h3, em, ul contributes nothing
at all to the output, so the conversion of the remaining elements is
unchanged.  (The claim says such elements degrade to a plain paragraph
with their text preserved; they are in fact skipped entirely.) -/
theorem claim_c4_unrecognized_skipped (tag : String) (href : Option Text)
    (cs : List Node) (rest : List Node)
    (h : tag ∉ ["h1", "p", "h2", "h3", "em", "ul"]) :
    ConvertToDocx.create_docx (Node.elem tag href cs :: rest) =
    ConvertToDocx.create_docx rest := by
  simp only [List.mem_cons, List.mem_singleton] at h
  push_neg at h
  obtain ⟨n1, n2, n3, n4, n5, n6⟩ := h
  have he : ConvertToDocx.renderElement (Node.elem tag href cs) = some [] := by
    simp [ConvertToDocx.renderElement, n1, n2, n3, n4, n5, n6]
  simp only [ConvertToDocx.create_docx, he]
  cases ConvertToDocx.create_docx rest <;> simp

/-- C4 witness: a blockquote element is not a recognized tag, so the
conversion of a document holding only it equals the conversion of the
empty document. -/
theorem claim_c4_witness :
    ("blockquote" ∉ ["h1", "p", "h2", "h3", "em", "ul"]) ∧
    ConvertToDocx.create_docx [Node.elem "blockquote" none [Node.str "draft note".toList]] =
      ConvertToDocx.create_docx [] :=
  ⟨by decide, claim_c4_unrecognized_skipped "blockquote" none _ _ (by decide)⟩

/-- C4 counterexample: a document holding one blockquote with non-empty
text renders to the empty block list — no paragraph is produced and the
text is dropped, refuting the claimed degrade-to-paragraph with text
preserved. -/
theorem claim_c4_counterexample :
    ConvertToDocx.create_docx [Node.elem "blockquote" none [Node.str "draft note".toList]] =
      some [] ∧
    getTextList [Node.str "draft note".toList] ≠ [] := by
  decide

theorem preprocessLines_passthrough :
    ∀ ls : List Text, (∀ l ∈ ls, ConvertToPdf.boldLeading l = false) →
      ConvertToPdf.preprocessLines ls = ls := by
  intro ls
  induction ls with
  | nil => intro _; rfl
  | cons l tl ih =>
    intro h
    cases tl with
    | nil => rfl
    | cons next rest =>
      have hl : ConvertToPdf.boldLeading l = false := h l (by simp)
      have htl : ∀ x ∈ next :: rest, ConvertToPdf.boldLeading x = false := by
        intro x hx
        exact h x (List.mem_cons_of_mem l hx)
      simp only [ConvertToPdf.preprocessLines, hl, Bool.false_and, if_false]
      rw [ih htl]
      simp

/-- C5.  The pre-pass transforms a line pair exactly when the first line
is bold-leading (its stripped text starts with a double asterisk and a
further double asterisk occurs from raw index 2 on — full bold wrapping
is not required) and the stripped next line is non-empty, does not start
with a hash mark, and does not start with the black square glyph (a
markdown dash bullet is not protected).  A qualifying pair becomes the
level-3 heading line carrying the raw first line followed by the
emphasized stripped next line, both lines being consumed (first
conjunct).  Every other line passes through unchanged: when the pair
does not qualify — including a bold-leading line whose successor fails
the subtitle test — the current line is emitted verbatim and processing
resumes at the successor (second conjunct); a final line is emitted
verbatim (third conjunct) and the empty input maps to itself (fourth
conjunct), so the four equations determine the pre-pass on every input.
In particular an input with no bold-leading line at all passes through
whole (fifth conjunct). -/
theorem claim_c5_title_subtitle_prepass :
    (∀ (l next : Text) (rest : List Text),
      ConvertToPdf.boldLeading l = true → ConvertToPdf.subtitleOk next = true →
        ConvertToPdf.preprocessLines (l :: next :: rest) =
          ("### ".toList ++ l) :: (('*' :: pyStrip next) ++ ['*']) ::
            ConvertToPdf.preprocessLines rest) ∧
    (∀ (l next : Text) (rest : List Text),
      (ConvertToPdf.boldLeading l && ConvertToPdf.subtitleOk next) = false →
        ConvertToPdf.preprocessLines (l :: next :: rest) =
          l :: ConvertToPdf.preprocessLines (next :: rest)) ∧
    (∀ l : Text, ConvertToPdf.preprocessLines [l] = [l]) ∧
    ConvertToPdf.preprocessLines [] = [] ∧
    (∀ ls : List Text, (∀ l ∈ ls, ConvertToPdf.boldLeading l = false) →
      ConvertToPdf.preprocessLines ls = ls) := by
  refine ⟨?_, ?_, fun l => rfl, rfl, preprocessLines_passthrough⟩
  · intro l next rest h1 h2
    simp [ConvertToPdf.preprocessLines, h1, h2]
  · intro l next rest h
    simp [ConvertToPdf.preprocessLines, h]

/-- C5 witness: a bold-leading title line with a plain successor is
rewritten to the heading and emphasis pair; a bold-leading line whose
successor starts with a hash mark passes through verbatim; and an input
with no bold-leading line passes through whole. -/
theorem claim_c5_witness :
    ConvertToPdf.preprocessLines ["**Data Scientist**".toList, "Acme, 2020".toList] =
      ["### **Data Scientist**".toList, "*Acme, 2020*".toList] ∧
    ConvertToPdf.preprocessLines ["**T**".toList, "# head".toList] =
      "**T**".toList :: ConvertToPdf.preprocessLines ["# head".toList] ∧
    ConvertToPdf.preprocessLines ["plain text".toList] = ["plain text".toList] := by
  refine ⟨?_, ?_, ?_⟩
  · have h := claim_c5_title_subtitle_prepass.1 "**Data Scientist**".toList
      "Acme, 2020".toList [] (by decide) (by decide)
    rw [h]
    decide
  · exact claim_c5_title_subtitle_prepass.2.1 "**T**".toList "# head".toList []
      (by decide)
  · exact claim_c5_title_subtitle_prepass.2.2.2.2 ["plain text".toList] (by decide)

/-- C5 counterexample: a line that is bold-leading but not bold-wrapped
(its stripped text does not end with a double asterisk) is still
transformed together with its successor, so it does not pass through
unchanged as the claim requires for non-bold-wrapped lines. -/
theorem claim_c5_counterexample :
    "**".toList.isSuffixOf (pyStrip "**Led** the team".toList) = false ∧
    ConvertToPdf.preprocessLines ["**Led** the team".toList, "Acme Corp".toList] ≠
      ["**Led** the team".toList, "Acme Corp".toList] ∧
    ConvertToPdf.preprocessLines ["**Led** the team".toList, "Acme Corp".toList] =
      ["### **Led** the team".toList, "*Acme Corp*".toList] := by
  decide

theorem splitChar_ne_nil (sep : Char) (s : Text) : splitChar sep s ≠ [] := by
  cases s with
  | nil => simp [splitChar]
  | cons c cs =>
    simp only [splitChar]
    split
    · simp
    · split <;> simp

theorem splitChar_length (sep : Char) (s : Text) :
    (splitChar sep s).length = countChar sep s + 1 := by
  induction s with
  | nil => rfl
  | cons c cs ih =>
    simp only [splitChar, countChar]
    split
    · simp [ih]
      omega
    · have hne := splitChar_ne_nil sep cs
      split
      · exact absurd (by assumption) hne
      · rename_i heq
        have : (splitChar sep cs).length = countChar sep cs + 1 := ih
        rw [heq] at this
        simp at this ⊢
        omega

theorem renderParts_length (cs : List Node) :
    ∀ (parts : List Text) (segs : List (List ConvertToDocx.PRun)),
      ConvertToDocx.renderParts cs parts = some segs → segs.length = parts.length := by
  intro parts
  induction parts with
  | nil =>
    intro segs h
    simp [ConvertToDocx.renderParts] at h
    simp [← h]
  | cons p ps ih =>
    intro segs h
    simp only [ConvertToDocx.renderParts] at h
    cases h1 : ConvertToDocx.renderPart cs p with
    | none => rw [h1] at h; simp at h
    | some s1 =>
      cases h2 : ConvertToDocx.renderParts cs ps with
      | none => rw [h1, h2] at h; simp at h
      | some rest =>
        rw [h1, h2] at h
        simp at h
        rw [← h]
        simp [ih rest h2]

theorem joinSegs_intercalate (segs : List (List ConvertToDocx.PRun)) :
    ConvertToDocx.joinSegs segs =
      List.intercalate [ConvertToDocx.PRun.run " | ".toList] segs := by
  induction segs with
  | nil => rfl
  | cons s rest ih =>
    cases rest with
    | nil => simp [ConvertToDocx.joinSegs, List.intercalate, List.intersperse]
    | cons s2 rest2 =>
      simp only [ConvertToDocx.joinSegs, ih]
      simp [List.intercalate, List.intersperse]

/-- C2.  For a paragraph whose emoji-stripped plain text contains both a
pipe and an at sign, whenever the contact rendering completes, the
segment list has exactly one segment per pipe-split part — the pipe
count plus one — and the paragraph run sequence is the segments joined
by the literal pipe separator run. -/
theorem claim_c2_segment_count (cs : List Node) (segs : List (List ConvertToDocx.PRun))
    (hp : '|' ∈ ConvertToDocx.strip_emojis (getTextList cs))
    (ha : '@' ∈ ConvertToDocx.strip_emojis (getTextList cs))
    (hr : ConvertToDocx.renderParts cs
      (splitChar '|' (ConvertToDocx.strip_emojis (getTextList cs))) = some segs) :
    segs.length = countChar '|' (ConvertToDocx.strip_emojis (getTextList cs)) + 1 ∧
    ConvertToDocx.joinSegs segs =
      List.intercalate [ConvertToDocx.PRun.run " | ".toList] segs := by
  refine ⟨?_, joinSegs_intercalate segs⟩
  rw [renderParts_length cs _ segs hr, splitChar_length]

/-- C2 witness: a contact line with one pipe renders to two segments. -/
theorem claim_c2_witness :
    ConvertToDocx.renderParts [Node.str "a@b | c".toList]
      (splitChar '|' (ConvertToDocx.strip_emojis (getTextList [Node.str "a@b | c".toList]))) =
      some [[ConvertToDocx.PRun.run "a@b".toList], [ConvertToDocx.PRun.run "c".toList]] ∧
    ([[ConvertToDocx.PRun.run "a@b".toList], [ConvertToDocx.PRun.run "c".toList]]
        : List (List ConvertToDocx.PRun)).length =
      countChar '|' (ConvertToDocx.strip_emojis (getTextList [Node.str "a@b | c".toList])) + 1 :=
  ⟨by decide,
    (claim_c2_segment_count [Node.str "a@b | c".toList]
      [[ConvertToDocx.PRun.run "a@b".toList], [ConvertToDocx.PRun.run "c".toList]]
      (by decide) (by decide) (by decide)).1⟩

/-- C2 counterexample: a paragraph whose text contains a pipe and an at
sign but that also holds an anchor child with empty visible text is not
rendered at all — the empty stripped anchor text is contained in the
first part, and the split on the empty anchor text raises ValueError, so
the conversion aborts with no contact line and no segments. -/
theorem claim_c2_counterexample :
    ('|' ∈ ConvertToDocx.strip_emojis (getTextList
      [Node.elem "a" (some "http://x".toList) [], Node.str "x@y|z".toList])) ∧
    ('@' ∈ ConvertToDocx.strip_emojis (getTextList
      [Node.elem "a" (some "http://x".toList) [], Node.str "x@y|z".toList])) ∧
    ConvertToDocx.create_docx [Node.elem "p" none
      [Node.elem "a" (some "http://x".toList) [], Node.str "x@y|z".toList]] = none := by
  decide

theorem main_loop_ne_zero (fs : List CheckAts.FsFile) :
    ∀ code : Nat, CheckAts.main_loop code fs ≠ 0 ↔
      (code ≠ 0 ∨ ∃ f ∈ fs, CheckAts.fileFlag f = true) := by
  induction fs with
  | nil => intro code; simp [CheckAts.main_loop]
  | cons f rest ih =>
    intro code
    simp only [CheckAts.main_loop]
    rw [ih]
    cases hf : CheckAts.fileFlag f with
    | true => simp [hf]
    | false => simp [hf]

theorem fileFlag_iff (f : CheckAts.FsFile) :
    CheckAts.fileFlag f = true ↔
      (f.present = false ∨
       (pyLower f.suffix.toList ≠ ".docx".toList ∧ pyLower f.suffix.toList ≠ ".pdf".toList) ∨
       (pyLower f.suffix.toList = ".docx".toList ∧
         ∃ r ∈ CheckAts.check_docx f.docx, r.status = CheckAts.Status.WARN) ∨
       (pyLower f.suffix.toList = ".pdf".toList ∧
         ∃ r ∈ CheckAts.check_pdf f.pdf, r.status = CheckAts.Status.WARN)) := by
  unfold CheckAts.fileFlag
  cases hp : f.present with
  | false => simp
  | true =>
    simp only [hp, Bool.not_true, Bool.false_eq_true, if_false]
    by_cases h1 : pyLower f.suffix.data = ['.', 'd', 'o', 'c', 'x']
    · have h2 : pyLower f.suffix.data ≠ ['.', 'p', 'd', 'f'] := by
        rw [h1]; decide
      simp [h1, h2, List.any_eq_true]
    · by_cases h2 : pyLower f.suffix.data = ['.', 'p', 'd', 'f']
      · simp [h1, h2, List.any_eq_true]
      · simp [h1, h2]

/-- C7.  First conjunct: the process exit status of a checker run is
non-zero exactly when some input file is missing, has a suffix other
than the two supported ones, or its dispatched report contains a WARN
entry — so SKIP and INFO entries never force a non-zero exit.  Second
conjunct: inserting a SKIP or INFO entry anywhere in a report leaves the
per-file ATS-ready verdict unchanged. -/
theorem claim_c7_exit_status :
    (∀ files : List CheckAts.FsFile,
      CheckAts.main_exit files ≠ 0 ↔
        ∃ f ∈ files,
          f.present = false ∨
          (pyLower f.suffix.toList ≠ ".docx".toList ∧ pyLower f.suffix.toList ≠ ".pdf".toList) ∨
          (pyLower f.suffix.toList = ".docx".toList ∧
            ∃ r ∈ CheckAts.check_docx f.docx, r.status = CheckAts.Status.WARN) ∨
          (pyLower f.suffix.toList = ".pdf".toList ∧
            ∃ r ∈ CheckAts.check_pdf f.pdf, r.status = CheckAts.Status.WARN)) ∧
    (∀ (rs₁ rs₂ : List CheckAts.CheckResult) (r : CheckAts.CheckResult),
      (r.status = CheckAts.Status.SKIP ∨ r.status = CheckAts.Status.INFO) →
      CheckAts.ats_ready (rs₁ ++ r :: rs₂) = CheckAts.ats_ready (rs₁ ++ rs₂)) := by
  constructor
  · intro files
    rw [CheckAts.main_exit, main_loop_ne_zero]
    simp only [ne_eq, not_true_eq_false, false_or]
    constructor
    · rintro ⟨f, hm, hf⟩
      exact ⟨f, hm, (fileFlag_iff f).mp hf⟩
    · rintro ⟨f, hm, hf⟩
      exact ⟨f, hm, (fileFlag_iff f).mpr hf⟩
  · intro rs₁ rs₂ r hr
    have hrw : (r.status = CheckAts.Status.WARN) = False := by
      rcases hr with h | h <;> simp [h]
    simp [CheckAts.ats_ready, CheckAts.warn_count, List.filter_append, hrw]

/-- C7 witness: inserting a SKIP entry into the empty report leaves the
verdict unchanged, and an empty batch exits zero. -/
theorem claim_c7_witness :
    CheckAts.ats_ready ([] ++ (⟨CheckAts.Status.SKIP, "Text extraction"⟩ : CheckAts.CheckResult) :: []) =
      CheckAts.ats_ready ([] ++ []) ∧
    ¬ (CheckAts.main_exit [] ≠ 0) :=
  ⟨claim_c7_exit_status.2 [] [] ⟨CheckAts.Status.SKIP, "Text extraction"⟩ (Or.inl rfl),
   fun h => by
     have := (claim_c7_exit_status.1 []).mp h
     simp at this⟩

theorem check_pdf_no_text_names (e : CheckAts.PdfEnv)
    (h : e.pdftotext = CheckAts.ToolRun.unavailable ∨
      e.pdftotext = CheckAts.ToolRun.timedOut) :
    "Emoji" ∉ (CheckAts.check_pdf e).map CheckAts.CheckResult.name ∧
    "Sections" ∉ (CheckAts.check_pdf e).map CheckAts.CheckResult.name := by
  unfold CheckAts.check_pdf
  rcases h with h | h <;>
    rw [h] <;>
    constructor <;>
    · rcases hinfo : e.pdfinfo with _ | _ | ⟨rc, _ | p⟩ <;>
        by_cases hs : e.sizeBytes > 2048 * 1024 <;>
        simp [hinfo, hs] <;>
        · intro x hrc hx
          split at hx <;> simp_all

/-- C6 (as amended).  Tool absence degrades the text-extraction check to
SKIP and no WARN entry named Text extraction appears; a timeout makes it
WARN.  Independently, the file-size check still runs and passes whenever
the size is under the threshold, and the page-count check still runs and
passes whenever the info tool completed with a small page count.  The
text-dependent emoji and section checks are omitted in BOTH cases — no
entry named Emoji or Sections appears in the report whenever the tool
was absent or timed out (final conjunct) — which is what the original
claim missed. -/
theorem claim_c6_extraction_degradation (e : CheckAts.PdfEnv) :
    (e.pdftotext = CheckAts.ToolRun.unavailable →
      (⟨CheckAts.Status.SKIP, "Text extraction"⟩ : CheckAts.CheckResult) ∈ CheckAts.check_pdf e ∧
      (⟨CheckAts.Status.WARN, "Text extraction"⟩ : CheckAts.CheckResult) ∉ CheckAts.check_pdf e) ∧
    (e.pdftotext = CheckAts.ToolRun.timedOut →
      (⟨CheckAts.Status.WARN, "Text extraction"⟩ : CheckAts.CheckResult) ∈ CheckAts.check_pdf e) ∧
    (e.sizeBytes ≤ 2048 * 1024 →
      (⟨CheckAts.Status.PASS, "File size"⟩ : CheckAts.CheckResult) ∈ CheckAts.check_pdf e) ∧
    (∀ p : Nat, e.pdfinfo = CheckAts.InfoRun.ran 0 (some p) → p ≤ 2 →
      (⟨CheckAts.Status.PASS, "Page count"⟩ : CheckAts.CheckResult) ∈ CheckAts.check_pdf e) ∧
    (e.pdftotext = CheckAts.ToolRun.unavailable ∨
        e.pdftotext = CheckAts.ToolRun.timedOut →
      "Emoji" ∉ (CheckAts.check_pdf e).map CheckAts.CheckResult.name ∧
      "Sections" ∉ (CheckAts.check_pdf e).map CheckAts.CheckResult.name) := by
  refine ⟨?_, ?_, ?_, ?_, fun h => check_pdf_no_text_names e h⟩
  · intro h
    unfold CheckAts.check_pdf
    rw [h]
    constructor
    · simp
    · rcases hinfo : e.pdfinfo with _ | _ | ⟨rc, pg⟩
      · by_cases hs : e.sizeBytes > 2048 * 1024 <;> simp [hinfo, hs]
      · by_cases hs : e.sizeBytes > 2048 * 1024 <;> simp [hinfo, hs]
      · rcases pg with _ | p
        · by_cases hs : e.sizeBytes > 2048 * 1024 <;> simp [hinfo, hs]
        · by_cases hs : e.sizeBytes > 2048 * 1024 <;>
            by_cases hrc : rc = 0 <;>
            by_cases hp : p > 2 <;>
            simp [hinfo, hs, hrc, hp]
  · intro h
    unfold CheckAts.check_pdf
    rw [h]
    simp
  · intro h
    unfold CheckAts.check_pdf
    have : ¬ (e.sizeBytes > 2048 * 1024) := by omega
    simp only [this, if_false]
    simp
  · intro p hinfo hp
    unfold CheckAts.check_pdf
    rw [hinfo]
    have : ¬ (p > 2) := by omega
    simp only [this, if_false]
    simp

/-- C6 witness: with the extraction tool absent, a small file and a
one-page info result, the SKIP entry appears and no WARN extraction
entry does; with a timeout, the WARN entry appears; the size and page
checks pass in the absent-tool environment; and in both the absent-tool
and the timeout environment no Emoji or Sections entry appears. -/
theorem claim_c6_witness :
    ((⟨CheckAts.Status.SKIP, "Text extraction"⟩ : CheckAts.CheckResult) ∈
      CheckAts.check_pdf ⟨1024, CheckAts.ToolRun.unavailable, CheckAts.InfoRun.ran 0 (some 1)⟩) ∧
    ((⟨CheckAts.Status.WARN, "Text extraction"⟩ : CheckAts.CheckResult) ∉
      CheckAts.check_pdf ⟨1024, CheckAts.ToolRun.unavailable, CheckAts.InfoRun.ran 0 (some 1)⟩) ∧
    ((⟨CheckAts.Status.WARN, "Text extraction"⟩ : CheckAts.CheckResult) ∈
      CheckAts.check_pdf ⟨1024, CheckAts.ToolRun.timedOut, CheckAts.InfoRun.unavailable⟩) ∧
    ((⟨CheckAts.Status.PASS, "File size"⟩ : CheckAts.CheckResult) ∈
      CheckAts.check_pdf ⟨1024, CheckAts.ToolRun.unavailable, CheckAts.InfoRun.ran 0 (some 1)⟩) ∧
    ((⟨CheckAts.Status.PASS, "Page count"⟩ : CheckAts.CheckResult) ∈
      CheckAts.check_pdf ⟨1024, CheckAts.ToolRun.unavailable, CheckAts.InfoRun.ran 0 (some 1)⟩) ∧
    ("Emoji" ∉ (CheckAts.check_pdf ⟨1024, CheckAts.ToolRun.unavailable,
      CheckAts.InfoRun.ran 0 (some 1)⟩).map CheckAts.CheckResult.name) ∧
    ("Sections" ∉ (CheckAts.check_pdf ⟨1024, CheckAts.ToolRun.timedOut,
      CheckAts.InfoRun.unavailable⟩).map CheckAts.CheckResult.name) :=
  ⟨((claim_c6_extraction_degradation _).1 rfl).1,
   ((claim_c6_extraction_degradation _).1 rfl).2,
   (claim_c6_extraction_degradation _).2.1 rfl,
   (claim_c6_extraction_degradation _).2.2.1 (by decide),
   (claim_c6_extraction_degradation _).2.2.2.1 1 rfl (by decide),
   ((claim_c6_extraction_degradation _).2.2.2.2 (Or.inl rfl)).1,
   ((claim_c6_extraction_degradation _).2.2.2.2 (Or.inr rfl)).2⟩

/-- C6 counterexample: with the extraction tool absent the report holds
exactly the size, extraction and page entries, and with a timed-out
extraction likewise (the extraction entry being WARN) — in both cases
the emoji and section checks of the paged suite are not run at all,
refuting the part of the claim that says every other check of the suite
still runs. -/
theorem claim_c6_counterexample :
    CheckAts.check_pdf ⟨2048, CheckAts.ToolRun.unavailable, CheckAts.InfoRun.ran 0 (some 2)⟩ =
      [⟨CheckAts.Status.PASS, "File size"⟩, ⟨CheckAts.Status.SKIP, "Text extraction"⟩,
        ⟨CheckAts.Status.PASS, "Page count"⟩] ∧
    "Emoji" ∉ (CheckAts.check_pdf ⟨2048, CheckAts.ToolRun.unavailable,
        CheckAts.InfoRun.ran 0 (some 2)⟩).map CheckAts.CheckResult.name ∧
    "Sections" ∉ (CheckAts.check_pdf ⟨2048, CheckAts.ToolRun.unavailable,
        CheckAts.InfoRun.ran 0 (some 2)⟩).map CheckAts.CheckResult.name ∧
    CheckAts.check_pdf ⟨2048, CheckAts.ToolRun.timedOut, CheckAts.InfoRun.ran 0 (some 2)⟩ =
      [⟨CheckAts.Status.PASS, "File size"⟩, ⟨CheckAts.Status.WARN, "Text extraction"⟩,
        ⟨CheckAts.Status.PASS, "Page count"⟩] ∧
    "Emoji" ∉ (CheckAts.check_pdf ⟨2048, CheckAts.ToolRun.timedOut,
        CheckAts.InfoRun.ran 0 (some 2)⟩).map CheckAts.CheckResult.name ∧
    "Sections" ∉ (CheckAts.check_pdf ⟨2048, CheckAts.ToolRun.timedOut,
        CheckAts.InfoRun.ran 0 (some 2)⟩).map CheckAts.CheckResult.name := by
  decide

theorem eq_append_drop_of_isPrefixOf {p s : Text} (h : p.isPrefixOf s = true) :
    s = p ++ s.drop p.length := by
  rw [List.isPrefixOf_iff_prefix] at h
  obtain ⟨t, ht⟩ := h
  rw [← ht, List.drop_left]

theorem closePara_split :
    ∀ s m r, ConvertToPdf.closePara s = some (m, r) → s = m ++ r := by
  intro s
  induction s with
  | nil => intro m r h; simp [ConvertToPdf.closePara] at h
  | cons c cs ih =>
    intro m r h
    rw [ConvertToPdf.closePara] at h
    by_cases hp : "</p>".toList.isPrefixOf (c :: cs) = true
    · rw [if_pos hp] at h
      simp only [Option.some.injEq, Prod.mk.injEq] at h
      obtain ⟨hm, hr⟩ := h
      have h1 := eq_append_drop_of_isPrefixOf hp
      rw [← hm, ← hr]
      simpa using h1
    · rw [if_neg hp] at h
      cases he : ConvertToPdf.closePara cs with
      | none => rw [he] at h; simp at h
      | some pr =>
        rw [he] at h
        obtain ⟨m2, r2⟩ := pr
        simp only [Option.some.injEq, Prod.mk.injEq] at h
        obtain ⟨hm, hr⟩ := h
        rw [← hm, ← hr]
        simpa using ih m2 r2 he

theorem pUnit_split :
    ∀ s u r, ConvertToPdf.pUnit s = some (u, r) → s = u ++ r := by
  intro s u r h
  unfold ConvertToPdf.pUnit at h
  by_cases hp : "<p>".toList.isPrefixOf (s.dropWhile pyIsSpace) = true
  · rw [if_pos hp] at h
    cases he : ConvertToPdf.closePara ((s.dropWhile pyIsSpace).drop 3) with
    | none => rw [he] at h; simp at h
    | some pr =>
      rw [he] at h
      obtain ⟨m2, r2⟩ := pr
      simp only [Option.some.injEq, Prod.mk.injEq] at h
      obtain ⟨hu, hr⟩ := h
      have h1 : s.dropWhile pyIsSpace =
          "<p>".toList ++ (s.dropWhile pyIsSpace).drop 3 :=
        eq_append_drop_of_isPrefixOf hp
      have h2 := closePara_split _ m2 r2 he
      rw [← hu, ← hr]
      calc s = s.takeWhile pyIsSpace ++ s.dropWhile pyIsSpace := by
              rw [List.takeWhile_append_dropWhile]
        _ = s.takeWhile pyIsSpace ++ ("<p>".toList ++ (m2 ++ r2)) := by
              rw [← h2, ← h1]
        _ = s.takeWhile pyIsSpace ++ "<p>".toList ++ m2 ++ r2 := by simp
  · rw [if_neg hp] at h
    simp at h

theorem unitsMatch_split :
    ∀ s u r, ConvertToPdf.unitsMatch s = some (u, r) → s = u ++ r := by
  intro s u r h
  unfold ConvertToPdf.unitsMatch at h
  cases h1 : ConvertToPdf.pUnit s with
  | none => rw [h1] at h; simp at h
  | some p1 =>
    obtain ⟨u1, r1⟩ := p1
    rw [h1] at h
    dsimp only at h
    cases h2 : ConvertToPdf.pUnit r1 with
    | none =>
      rw [h2] at h
      simp only [Option.some.injEq, Prod.mk.injEq] at h
      obtain ⟨hu, hr⟩ := h
      rw [← hu, ← hr]
      exact pUnit_split s u1 r1 h1
    | some p2 =>
      obtain ⟨u2, r2⟩ := p2
      rw [h2] at h
      simp only [Option.some.injEq, Prod.mk.injEq] at h
      obtain ⟨hu, hr⟩ := h
      rw [← hu, ← hr]
      rw [pUnit_split s u1 r1 h1, pUnit_split r1 u2 r2 h2]
      simp

theorem matchAfterH1_split :
    ∀ s m r, ConvertToPdf.matchAfterH1 s = some (m, r) → s = m ++ r := by
  intro s
  induction s with
  | nil => intro m r h; simp [ConvertToPdf.matchAfterH1] at h
  | cons c cs ih =>
    intro m r h
    rw [ConvertToPdf.matchAfterH1] at h
    by_cases hp : "</h1>".toList.isPrefixOf (c :: cs) = true
    · rw [if_pos hp] at h
      cases hu : ConvertToPdf.unitsMatch ((c :: cs).drop 5) with
      | some ur =>
        obtain ⟨u2, r2⟩ := ur
        rw [hu] at h
        simp only [Option.some.injEq, Prod.mk.injEq] at h
        obtain ⟨hm, hr⟩ := h
        have h1 := eq_append_drop_of_isPrefixOf hp
        rw [show ("</h1>".toList.length) = 5 from rfl] at h1
        have h2 := unitsMatch_split _ u2 r2 hu
        rw [← hm, ← hr]
        rw [h2] at h1
        simpa using h1
      | none =>
        rw [hu] at h
        cases he : ConvertToPdf.matchAfterH1 cs with
        | none => rw [he] at h; simp at h
        | some pr =>
          obtain ⟨m2, r2⟩ := pr
          rw [he] at h
          simp only [Option.some.injEq, Prod.mk.injEq] at h
          obtain ⟨hm, hr⟩ := h
          rw [← hm, ← hr]
          simpa using ih m2 r2 he
    · rw [if_neg hp] at h
      cases he : ConvertToPdf.matchAfterH1 cs with
      | none => rw [he] at h; simp at h
      | some pr =>
        obtain ⟨m2, r2⟩ := pr
        rw [he] at h
        simp only [Option.some.injEq, Prod.mk.injEq] at h
        obtain ⟨hm, hr⟩ := h
        rw [← hm, ← hr]
        simpa using ih m2 r2 he

theorem findHeaderMatch_split :
    ∀ s p m r, ConvertToPdf.findHeaderMatch s = some (p, m, r) →
      s = p ++ m ++ r ∧ "<h1>".toList.isPrefixOf m = true := by
  intro s
  induction s with
  | nil => intro p m r h; simp [ConvertToPdf.findHeaderMatch] at h
  | cons c cs ih =>
    intro p m r h
    rw [ConvertToPdf.findHeaderMatch] at h
    by_cases hp : "<h1>".toList.isPrefixOf (c :: cs) = true
    · rw [if_pos hp] at h
      cases hu : ConvertToPdf.matchAfterH1 ((c :: cs).drop 4) with
      | some ur =>
        obtain ⟨m2, r2⟩ := ur
        rw [hu] at h
        simp only [Option.some.injEq, Prod.mk.injEq] at h
        obtain ⟨hpre, hm, hr⟩ := h
        have h1 := eq_append_drop_of_isPrefixOf hp
        rw [show ("<h1>".toList.length) = 4 from rfl] at h1
        have h2 := matchAfterH1_split _ m2 r2 hu
        rw [← hpre, ← hm, ← hr]
        constructor
        · rw [h2] at h1
          simpa using h1
        · simp [List.isPrefixOf_iff_prefix]
      | none =>
        rw [hu] at h
        cases he : ConvertToPdf.findHeaderMatch cs with
        | none => rw [he] at h; simp at h
        | some pr =>
          obtain ⟨p2, m2, r2⟩ := pr
          rw [he] at h
          simp only [Option.some.injEq, Prod.mk.injEq] at h
          obtain ⟨hpre, hm, hr⟩ := h
          obtain ⟨ha, hb⟩ := ih p2 m2 r2 he
          rw [← hpre, ← hm, ← hr]
          exact ⟨by rw [List.cons_append, List.cons_append, ← ha], hb⟩
    · rw [if_neg hp] at h
      cases he : ConvertToPdf.findHeaderMatch cs with
      | none => rw [he] at h; simp at h
      | some pr =>
        obtain ⟨p2, m2, r2⟩ := pr
        rw [he] at h
        simp only [Option.some.injEq, Prod.mk.injEq] at h
        obtain ⟨hpre, hm, hr⟩ := h
        obtain ⟨ha, hb⟩ := ih p2 m2 r2 he
        rw [← hpre, ← hm, ← hr]
        exact ⟨by rw [List.cons_append, List.cons_append, ← ha], hb⟩

/-- C9 (as amended).  The header wrap performs at most one substitution:
either the markup is returned unchanged, or it splits as a prefix, a
matched region and a suffix, and the output is the same three pieces
with the matched region — character-identical, starting at a level-1
heading opening tag — enclosed in the header-box container.  Nothing is
reordered and nothing else is inserted.  (Which region is matched is
constrained but not pinned to the first heading plus its own paragraphs;
see the counterexample.) -/
theorem claim_c9_wrap_structure (s : Text) :
    ConvertToPdf.wrapHeader s = s ∨
    ∃ pre m post, s = pre ++ m ++ post ∧
      ConvertToPdf.wrapHeader s =
        pre ++ ConvertToPdf.divOpen ++ m ++ ConvertToPdf.divClose ++ post ∧
      "<h1>".toList.isPrefixOf m = true := by
  unfold ConvertToPdf.wrapHeader
  cases hf : ConvertToPdf.findHeaderMatch s with
  | none => exact Or.inl rfl
  | some pr =>
    obtain ⟨p, m, r⟩ := pr
    obtain ⟨ha, hb⟩ := findHeaderMatch_split s p m r hf
    exact Or.inr ⟨p, m, r, ha, by simp, hb⟩

/-- C9 counterexample: in a rendered markup with two level-1 headings
where the first is not followed by a paragraph, the single wrap spans
from the first heading across the intervening level-2 heading and the
second level-1 heading to the paragraph after it — the box does not
consist of the first heading together with its own following paragraphs
(the level-2 heading text ends up inside the box). -/
theorem claim_c9_counterexample :
    ConvertToPdf.wrapHeader "<h1>A</h1><h2>B</h2><h1>C</h1><p>x</p>".toList =
      ConvertToPdf.divOpen ++ "<h1>A</h1><h2>B</h2><h1>C</h1><p>x</p>".toList ++
        ConvertToPdf.divClose ∧
    isSubL "<h2>B</h2>".toList
      ("<h1>A</h1>".toList ++ ConvertToPdf.divClose) = false := by
  decide

theorem runLinks_append :
    ∀ a b : List ConvertToDocx.PRun,
      ConvertToDocx.runLinks (a ++ b) =
        ConvertToDocx.runLinks a ++ ConvertToDocx.runLinks b := by
  intro a b
  induction a with
  | nil => rfl
  | cons x rest ih => cases x <;> simp [ConvertToDocx.runLinks, ih]

theorem blockLinks_append :
    ∀ a b : List ConvertToDocx.DocxBlock,
      ConvertToDocx.blockLinks (a ++ b) =
        ConvertToDocx.blockLinks a ++ ConvertToDocx.blockLinks b := by
  intro a b
  induction a with
  | nil => rfl
  | cons x rest ih => cases x <;> simp [ConvertToDocx.blockLinks, ih]

mutual
theorem anchors_nil_node :
    ∀ n : Node, ConvertToDocx.anchorFree n = true → ConvertToDocx.anchors n = []
  | Node.str _, _ => rfl
  | Node.elem n h cs, hf => by
    simp only [ConvertToDocx.anchorFree, Bool.and_eq_true] at hf
    have h1 : ¬ (n = "a") := by simpa using hf.1
    simp only [ConvertToDocx.anchors, if_neg h1, List.nil_append]
    exact anchors_nil_list cs hf.2

theorem anchors_nil_list :
    ∀ cs : List Node, ConvertToDocx.anchorFreeList cs = true →
      ConvertToDocx.anchorsList cs = []
  | [], _ => rfl
  | n :: ns, hf => by
    simp only [ConvertToDocx.anchorFreeList, Bool.and_eq_true] at hf
    simp only [ConvertToDocx.anchorsList]
    rw [anchors_nil_node n hf.1, anchors_nil_list ns hf.2]
    rfl
end

mutual
theorem runLinks_walk_node :
    ∀ n : Node, ConvertToDocx.wfAnchors n = true →
      ConvertToDocx.runLinks (ConvertToDocx.process_text_with_links n) =
        ConvertToDocx.anchors n
  | Node.str _, _ => rfl
  | Node.elem n h cs, hw => by
    by_cases ha : n = "a"
    · subst ha
      simp only [ConvertToDocx.wfAnchors, if_pos rfl] at hw
      simp only [ConvertToDocx.process_text_with_links, if_pos rfl]
      simp only [ConvertToDocx.anchors, if_pos rfl]
      rw [anchors_nil_list cs hw]
      rfl
    · simp only [ConvertToDocx.wfAnchors, if_neg ha] at hw
      simp only [ConvertToDocx.process_text_with_links, if_neg ha]
      simp only [ConvertToDocx.anchors, if_neg ha, List.nil_append]
      exact runLinks_walk_list cs hw

theorem runLinks_walk_list :
    ∀ cs : List Node, ConvertToDocx.wfAnchorsList cs = true →
      ConvertToDocx.runLinks (ConvertToDocx.processChildren cs) =
        ConvertToDocx.anchorsList cs
  | [], _ => rfl
  | Node.str s :: rest, hw => by
    simp only [ConvertToDocx.wfAnchorsList, Bool.and_eq_true] at hw
    simp only [ConvertToDocx.processChildren, ConvertToDocx.anchorsList]
    rw [runLinks_append]
    have hstr : ConvertToDocx.runLinks
        (if pyStrip s ≠ [] then [ConvertToDocx.PRun.run s] else []) = [] := by
      split <;> rfl
    rw [hstr, runLinks_walk_list rest hw.2]
    rfl
  | Node.elem n h cs :: rest, hw => by
    simp only [ConvertToDocx.wfAnchorsList, Bool.and_eq_true] at hw
    simp only [ConvertToDocx.processChildren, ConvertToDocx.anchorsList]
    rw [runLinks_append]
    by_cases ha : n = "a"
    · subst ha
      have hw1 := hw.1
      simp only [ConvertToDocx.wfAnchors, if_pos rfl] at hw1
      simp only [if_pos rfl]
      simp only [ConvertToDocx.anchors, if_pos rfl]
      rw [anchors_nil_list cs hw1, runLinks_walk_list rest hw.2]
      rfl
    · simp only [if_neg ha]
      rw [runLinks_walk_node (Node.elem n h cs) hw.1,
        runLinks_walk_list rest hw.2]
end

theorem runLinks_eq_nil_of_no_link :
    ∀ l : List ConvertToDocx.PRun,
      (∀ r ∈ l, ∀ t u, r ≠ ConvertToDocx.PRun.linkRun t u) →
      ConvertToDocx.runLinks l = [] := by
  intro l
  induction l with
  | nil => intro _; rfl
  | cons x rest ih =>
    intro h
    have hrest := fun r hr => h r (List.mem_cons_of_mem x hr)
    cases x with
    | run t => simpa [ConvertToDocx.runLinks] using ih hrest
    | boldRun t => simpa [ConvertToDocx.runLinks] using ih hrest
    | linkRun t u => exact absurd rfl (h _ (by simp) t u)

theorem runLinks_renderLi (li : Node) :
    ConvertToDocx.runLinks (ConvertToDocx.renderLi li) = [] := by
  unfold ConvertToDocx.renderLi
  cases li with
  | str s => rfl
  | elem n h cs =>
    dsimp only
    cases hfa : findAllTagList "strong" cs with
    | nil => rfl
    | cons a as =>
      apply runLinks_eq_nil_of_no_link
      intro r hr t u
      rcases List.mem_map.mp hr with ⟨part, _, heq⟩
      by_cases hp : "<strong>".toList.isPrefixOf part = true
      · rw [← heq, if_pos hp]
        simp
      · rw [← heq, if_neg hp]
        simp

theorem blockLinks_map_bullet :
    ∀ lis : List Node,
      ConvertToDocx.blockLinks (lis.map
        (fun li => ConvertToDocx.DocxBlock.bulletPara (ConvertToDocx.renderLi li))) = [] := by
  intro lis
  induction lis with
  | nil => rfl
  | cons li rest ih =>
    simp only [List.map_cons, ConvertToDocx.blockLinks]
    rw [runLinks_renderLi li, ih]
    rfl

theorem renderElement_links :
    ∀ n : Node, ConvertToDocx.topOk n = true →
      ∃ bs, ConvertToDocx.renderElement n = some bs ∧
        ConvertToDocx.blockLinks bs = ConvertToDocx.anchors n := by
  intro n htop
  cases n with
  | str s => exact ⟨[], rfl, rfl⟩
  | elem name h cs =>
    by_cases hp : name = "p"
    · subst hp
      simp only [ConvertToDocx.topOk, if_pos rfl, if_true, Bool.and_eq_true] at htop
      have hc : ¬ ('|' ∈ ConvertToDocx.strip_emojis (getTextList cs) ∧
          '@' ∈ ConvertToDocx.strip_emojis (getTextList cs)) := by
        have hx := htop.1
        simp only [Bool.not_eq_eq_eq_not, Bool.not_true, Bool.and_eq_false_iff] at hx
        rcases hx with hx | hx
        · intro hand
          rw [decide_eq_false_iff_not] at hx
          exact hx hand.1
        · intro hand
          rw [decide_eq_false_iff_not] at hx
          exact hx hand.2
      refine ⟨[ConvertToDocx.DocxBlock.para
        (ConvertToDocx.process_text_with_links (Node.elem "p" h cs))], ?_, ?_⟩
      · simp only [ConvertToDocx.renderElement]
        rw [if_neg (by decide), if_neg hc]
        simp
      · simp only [ConvertToDocx.blockLinks]
        rw [runLinks_walk_node (Node.elem "p" h cs) (by
          simp only [ConvertToDocx.wfAnchors, if_neg (by decide : ¬ ("p" = "a"))]
          exact htop.2)]
        simp
    · have hfree : ConvertToDocx.anchorFree (Node.elem name h cs) = true := by
        simpa [ConvertToDocx.topOk, hp] using htop
      have hanch := anchors_nil_node _ hfree
      by_cases h1 : name = "h1"
      · subst h1
        refine ⟨[ConvertToDocx.DocxBlock.heading 1
          (ConvertToDocx.strip_emojis (getTextList cs))],
          by simp [ConvertToDocx.renderElement], ?_⟩
        rw [hanch]
        rfl
      · by_cases h2 : name = "h2"
        · subst h2
          refine ⟨[ConvertToDocx.DocxBlock.heading 2
            (ConvertToDocx.strip_emojis (getTextList cs))],
            by simp [ConvertToDocx.renderElement], ?_⟩
          rw [hanch]
          rfl
        · by_cases h3 : name = "h3"
          · subst h3
            refine ⟨[ConvertToDocx.DocxBlock.heading 3
              (ConvertToDocx.strip_emojis (getTextList cs))],
              by simp [ConvertToDocx.renderElement], ?_⟩
            rw [hanch]
            rfl
          · by_cases h4 : name = "em"
            · subst h4
              refine ⟨[ConvertToDocx.DocxBlock.emPara
                (ConvertToDocx.strip_emojis (getTextList cs))],
                by simp [ConvertToDocx.renderElement], ?_⟩
              rw [hanch]
              rfl
            · by_cases h5 : name = "ul"
              · subst h5
                refine ⟨(findAllTagList "li" cs).map
                  (fun li => ConvertToDocx.DocxBlock.bulletPara (ConvertToDocx.renderLi li)),
                  by simp [ConvertToDocx.renderElement], ?_⟩
                rw [hanch]
                exact blockLinks_map_bullet (findAllTagList "li" cs)
              · refine ⟨[], ?_, by rw [hanch]; rfl⟩
                simp only [ConvertToDocx.renderElement]
                rw [if_neg h1, if_neg hp, if_neg h2, if_neg h3, if_neg h4, if_neg h5]

/-- C1 (as amended).  For a document with no contact line whose
hyperlinks all live inside paragraph elements (with the usual
non-nested anchors), the structured renderer registers exactly one
external hyperlink relationship per anchor occurrence, in document
order, each carrying the exact target of that occurrence, and emits the
link-carrying run referencing it: the registration sequence of the
rendered artifact equals the anchor-target sequence of the document.
(The original claim ranges over all documents; an anchor inside a list
item refutes it, see the counterexample.) -/
theorem claim_c1_link_registration (ns : List Node)
    (h : ConvertToDocx.topOkList ns = true) :
    ∃ bs, ConvertToDocx.create_docx ns = some bs ∧
      ConvertToDocx.blockLinks bs = ConvertToDocx.anchorsList ns := by
  induction ns with
  | nil => exact ⟨[], rfl, rfl⟩
  | cons n rest ih =>
    simp only [ConvertToDocx.topOkList, Bool.and_eq_true] at h
    obtain ⟨bs1, he1, hl1⟩ := renderElement_links n h.1
    obtain ⟨bs2, he2, hl2⟩ := ih h.2
    refine ⟨bs1 ++ bs2, ?_, ?_⟩
    · simp only [ConvertToDocx.create_docx, he1, he2]
    · rw [blockLinks_append, hl1, hl2]
      rfl

/-- C1 witness: a document holding one paragraph with one anchor and a
heading registers exactly that target once. -/
theorem claim_c1_witness :
    ConvertToDocx.topOkList
      [Node.elem "p" none [Node.str "See ".toList,
        Node.elem "a" (some "https://x.example".toList) [Node.str "site".toList],
        Node.str " now".toList],
       Node.elem "h2" none [Node.str "Work".toList]] = true ∧
    ∃ bs, ConvertToDocx.create_docx
      [Node.elem "p" none [Node.str "See ".toList,
        Node.elem "a" (some "https://x.example".toList) [Node.str "site".toList],
        Node.str " now".toList],
       Node.elem "h2" none [Node.str "Work".toList]] = some bs ∧
      ConvertToDocx.blockLinks bs = ConvertToDocx.anchorsList
        [Node.elem "p" none [Node.str "See ".toList,
          Node.elem "a" (some "https://x.example".toList) [Node.str "site".toList],
          Node.str " now".toList],
         Node.elem "h2" none [Node.str "Work".toList]] :=
  ⟨by decide, claim_c1_link_registration _ (by decide)⟩

/-- C1 counterexample: a document with a hyperlink and no contact line
where the link sits inside a list item.  The renderer emits the visible
text as a plain bullet run, registers no relationship and emits no
link-carrying run, so the target is silently dropped, refuting the
claim over all documents. -/
theorem claim_c1_counterexample :
    ConvertToDocx.create_docx
      [Node.elem "ul" none [Node.elem "li" none
        [Node.elem "a" (some "https://github.example/u".toList)
          [Node.str "GitHub".toList]]]] =
      some [ConvertToDocx.DocxBlock.bulletPara [ConvertToDocx.PRun.run "GitHub".toList]] ∧
    ConvertToDocx.blockLinks
      [ConvertToDocx.DocxBlock.bulletPara [ConvertToDocx.PRun.run "GitHub".toList]] = [] ∧
    ConvertToDocx.anchorsList
      [Node.elem "ul" none [Node.elem "li" none
        [Node.elem "a" (some "https://github.example/u".toList)
          [Node.str "GitHub".toList]]]] =
      [some "https://github.example/u".toList] := by
  decide
